import Mathlib

/-
  Verification development for the peer store of py-libp2p
  (src/libp2p/peer/peerstore.py).

  The store is embedded shallowly: the Python `Dict[ID, PeerData]` becomes an
  insertion-ordered association list (Python dicts preserve insertion order and
  overwrite in place), mutating methods become functions `PeerStore → PeerStore`,
  and reading methods become functions returning a pair of a result
  (`Except PeerStoreError α`, matching `raise PeerStoreError`) and the store
  after the call, translated statement by statement from the Python body.

  `libp2p/peer/peerdata.py` is not among the sources; the `PeerData` operations
  that `peerstore.py` calls are modelled from the spec (each such definition
  carries a doc comment starting `Modelled from the spec:`).
-/

namespace PeerStoreModel

/-- Peer identifier (`libp2p.peer.id.ID`): opaque, comparable; embedded as `Nat`. -/
abbrev ID := Nat

/-- Network address (`multiaddr.Multiaddr`): value-based equality; embedded as `String`. -/
abbrev Multiaddr := String

/-- A protocol identifier string. -/
abbrev Protocol := String

/-- Public key (`libp2p.crypto.keys.PublicKey`): opaque comparable value. -/
abbrev PublicKey := Nat

/-- Private key (`libp2p.crypto.keys.PrivateKey`): opaque comparable value. -/
abbrev PrivateKey := Nat

/-- Metadata value (Python `Any`): an opaque payload, embedded as `String`. -/
abbrev MetaValue := String

/-- `libp2p.crypto.keys.KeyPair`: a public and a private key. -/
structure KeyPair where
  public_key : PublicKey
  private_key : PrivateKey
deriving Repr, DecidableEq

/-- The errors raised by `peerstore.py`.  `peerNotFound`, `pubkeyNotFound`,
`privkeyNotFound` and `metadataKeyNotFound` model `PeerStoreError` with the
corresponding message; `typeError` models the Python `TypeError` raised when a
method is called with the wrong number of arguments (as `add_key_pair` does). -/
inductive PeerStoreError where
  | peerNotFound
  | pubkeyNotFound
  | privkeyNotFound
  | metadataKeyNotFound
  | typeError
deriving Repr, DecidableEq

/-- Modelled from the spec: `libp2p/peer/peerdata.py` is not among the sources.
Per-peer record holding the four books the spec names: addresses, protocols,
metadata, and the optional key halves ("KeyRecord = (optional public key,
optional private key) per peer"). -/
structure PeerData where
  addrs : List Multiaddr
  protocols : List Protocol
  metadata : List (String × MetaValue)
  pubkey : Option PublicKey
  privkey : Option PrivateKey
deriving Repr, DecidableEq

/-- A fresh `PeerData()`: all books empty, no keys. -/
def PeerData.emptyData : PeerData :=
  { addrs := [], protocols := [], metadata := [], pubkey := none, privkey := none }

/-- Insert one address if not already present (value-based dedup). -/
def insertAddr (acc : List Multiaddr) (a : Multiaddr) : List Multiaddr :=
  if a ∈ acc then acc else acc ++ [a]

/-- Modelled from the spec: `PeerData.add_addrs` (missing `peerdata.py`).
"A peer's address set contains at most one record per distinct Address" — each
address not yet present is appended; the peerstore facade passes no expiry
information down (it discards `ttl`), so no expiry is recorded. -/
def PeerData.add_addrs (d : PeerData) (as : List Multiaddr) : PeerData :=
  { d with addrs := as.foldl insertAddr d.addrs }

/-- Modelled from the spec: `PeerData.get_addrs` (missing `peerdata.py`)
returns the stored address list. -/
def PeerData.get_addrs (d : PeerData) : List Multiaddr :=
  d.addrs

/-- Modelled from the spec: `PeerData.clear_addrs` (missing `peerdata.py`)
"atomically empties the peer's address set". -/
def PeerData.clear_addrs (d : PeerData) : PeerData :=
  { d with addrs := [] }

/-- Insert one protocol if not already present (duplicates dropped). -/
def insertProto (acc : List Protocol) (q : Protocol) : List Protocol :=
  if q ∈ acc then acc else acc ++ [q]

/-- Modelled from the spec: `PeerData.add_protocols` (missing `peerdata.py`)
"unions into the existing set, first-seen order preserved, duplicates dropped". -/
def PeerData.add_protocols (d : PeerData) (ps : List Protocol) : PeerData :=
  { d with protocols := ps.foldl insertProto d.protocols }

/-- Modelled from the spec: `PeerData.set_protocols` (missing `peerdata.py`)
"atomically replaces the whole set". -/
def PeerData.set_protocols (d : PeerData) (ps : List Protocol) : PeerData :=
  { d with protocols := ps }

/-- Modelled from the spec: `PeerData.get_protocols` (missing `peerdata.py`)
returns the stored ordered sequence. -/
def PeerData.get_protocols (d : PeerData) : List Protocol :=
  d.protocols

/-- Update a string-keyed association list in place, appending if absent
(Python dict assignment). -/
def putAssoc (m : List (String × MetaValue)) (k : String) (v : MetaValue) :
    List (String × MetaValue) :=
  match m with
  | [] => [(k, v)]
  | (k', v') :: rest => if k' = k then (k, v) :: rest else (k', v') :: putAssoc rest k v

/-- Look a key up in a string-keyed association list. -/
def getAssoc (m : List (String × MetaValue)) (k : String) : Option MetaValue :=
  match m with
  | [] => none
  | (k', v') :: rest => if k' = k then some v' else getAssoc rest k

/-- Modelled from the spec: `PeerData.put_metadata` (missing `peerdata.py`)
"last-write-wins". -/
def PeerData.put_metadata (d : PeerData) (k : String) (v : MetaValue) : PeerData :=
  { d with metadata := putAssoc d.metadata k v }

/-- Modelled from the spec: `PeerData.get_metadata` (missing `peerdata.py`)
returns the stored value, or fails when the key is absent (the `PeerDataError`
that `PeerStore.get` converts into a `PeerStoreError`). -/
def PeerData.get_metadata (d : PeerData) (k : String) : Option MetaValue :=
  getAssoc d.metadata k

/-- Modelled from the spec: `PeerData.add_pubkey` (missing `peerdata.py`)
stores/overwrites the public key half. -/
def PeerData.add_pubkey (d : PeerData) (k : PublicKey) : PeerData :=
  { d with pubkey := some k }

/-- Modelled from the spec: `PeerData.add_privkey` (missing `peerdata.py`)
stores/overwrites the private key half. -/
def PeerData.add_privkey (d : PeerData) (k : PrivateKey) : PeerData :=
  { d with privkey := some k }

/-- The peer store: one global `Dict[ID, PeerData]` (`peerstore.py` line 15),
embedded as an insertion-ordered association list. -/
structure PeerStore where
  peer_data_map : List (ID × PeerData)
deriving Repr, DecidableEq

/-- `PeerStore.__init__`: empty map. -/
def PeerStore.emptyStore : PeerStore :=
  { peer_data_map := [] }

/-- `peer_id in self.peer_data_map` / `self.peer_data_map[peer_id]`:
look up the first (unique) entry for a peer id. -/
def lookupPD (m : List (ID × PeerData)) (p : ID) : Option PeerData :=
  match m with
  | [] => none
  | (q, d) :: rest => if q = p then some d else lookupPD rest p

/-- `self.peer_data_map[peer_id] = d`: overwrite in place if present
(Python dicts keep the original position), append at the end otherwise. -/
def updatePD (m : List (ID × PeerData)) (p : ID) (d : PeerData) : List (ID × PeerData) :=
  match m with
  | [] => [(p, d)]
  | (q, e) :: rest => if q = p then (p, d) :: rest else (q, e) :: updatePD rest p d

/-- `PeerStore.__create_or_get_peer_data` (peerstore.py lines 20-33): returns the
peer data for `peer_id`, creating and storing a fresh `PeerData` if absent. -/
def PeerStore.create_or_get_peer_data (s : PeerStore) (p : ID) : PeerData × PeerStore :=
  match lookupPD s.peer_data_map p with
  | some d => (d, s)
  | none => (PeerData.emptyData, { peer_data_map := s.peer_data_map ++ [(p, PeerData.emptyData)] })

/-- The common shape of every mutating method: get-or-create the peer's data,
mutate it, and store the result back (Python mutates the shared object). -/
def PeerStore.modifyPD (s : PeerStore) (p : ID) (f : PeerData → PeerData) : PeerStore :=
  let pr := s.create_or_get_peer_data p
  { peer_data_map := updatePD pr.2.peer_data_map p (f pr.1) }

/-- `PeerStore.peer_info` (lines 35-43): the peer's id and addresses, or
`PeerStoreError("peer ID not found")`.  Reads return the result paired with the
store after the call; the body contains no mutation. -/
def PeerStore.peer_info (s : PeerStore) (p : ID) :
    Except PeerStoreError (ID × List Multiaddr) × PeerStore :=
  ((match lookupPD s.peer_data_map p with
    | some d => .ok (p, d.get_addrs)
    | none => .error .peerNotFound), s)

/-- `PeerStore.get_protocols` (lines 45-53). -/
def PeerStore.get_protocols (s : PeerStore) (p : ID) :
    Except PeerStoreError (List Protocol) × PeerStore :=
  ((match lookupPD s.peer_data_map p with
    | some d => .ok d.get_protocols
    | none => .error .peerNotFound), s)

/-- `PeerStore.add_protocols` (lines 55-61). -/
def PeerStore.add_protocols (s : PeerStore) (p : ID) (protocols : List Protocol) : PeerStore :=
  s.modifyPD p (fun d => d.add_protocols protocols)

/-- `PeerStore.set_protocols` (lines 63-69). -/
def PeerStore.set_protocols (s : PeerStore) (p : ID) (protocols : List Protocol) : PeerStore :=
  s.modifyPD p (fun d => d.set_protocols protocols)

/-- `PeerStore.peer_ids` (lines 71-75): all keys of the map. -/
def PeerStore.peer_ids (s : PeerStore) : List ID × PeerStore :=
  (s.peer_data_map.map Prod.fst, s)

/-- `PeerStore.get` (lines 77-90): metadata lookup; `PeerDataError` from the
missing key is converted into a `PeerStoreError`. -/
def PeerStore.get (s : PeerStore) (p : ID) (key : String) :
    Except PeerStoreError MetaValue × PeerStore :=
  ((match lookupPD s.peer_data_map p with
    | some d =>
      match d.get_metadata key with
      | some v => .ok v
      | none => .error .metadataKeyNotFound
    | none => .error .peerNotFound), s)

/-- `PeerStore.put` (lines 92-101). -/
def PeerStore.put (s : PeerStore) (p : ID) (key : String) (val : MetaValue) : PeerStore :=
  s.modifyPD p (fun d => d.put_metadata key val)

/-- `PeerStore.add_addrs` (lines 111-119): `# Ignore ttl for now` — the `ttl`
argument is accepted and discarded; only the address list reaches `PeerData`. -/
def PeerStore.add_addrs (s : PeerStore) (p : ID) (addrs : List Multiaddr) (ttl : Int) :
    PeerStore :=
  s.modifyPD p (fun d => d.add_addrs addrs)

/-- `PeerStore.add_addr` (lines 103-109): delegates to `add_addrs` with a
singleton list. -/
def PeerStore.add_addr (s : PeerStore) (p : ID) (addr : Multiaddr) (ttl : Int) : PeerStore :=
  s.add_addrs p [addr] ttl

/-- `PeerStore.addrs` (lines 121-129). -/
def PeerStore.addrs (s : PeerStore) (p : ID) :
    Except PeerStoreError (List Multiaddr) × PeerStore :=
  ((match lookupPD s.peer_data_map p with
    | some d => .ok d.get_addrs
    | none => .error .peerNotFound), s)

/-- `PeerStore.clear_addrs` (lines 131-137): clears only if the peer is in the
map; otherwise does nothing. -/
def PeerStore.clear_addrs (s : PeerStore) (p : ID) : PeerStore :=
  match lookupPD s.peer_data_map p with
  | some d => { peer_data_map := updatePD s.peer_data_map p d.clear_addrs }
  | none => s

/-- `PeerStore.peers_with_addrs` (lines 139-149): every peer id whose address
list has length at least 1, in map iteration (insertion) order. -/
def PeerStore.peers_with_addrs (s : PeerStore) : List ID × PeerStore :=
  ((s.peer_data_map.filter (fun pd => decide (1 ≤ pd.2.get_addrs.length))).map Prod.fst, s)

/-- `PeerStore.add_pubkey` (lines 151-158): stores the key unconditionally; the
check that the key matches the peer id is an unimplemented TODO (line 157). -/
def PeerStore.add_pubkey (s : PeerStore) (p : ID) (pubkey : PublicKey) : PeerStore :=
  s.modifyPD p (fun d => d.add_pubkey pubkey)

/-- `PeerStore.pubkey` (lines 160-173). -/
def PeerStore.pubkey (s : PeerStore) (p : ID) :
    Except PeerStoreError PublicKey × PeerStore :=
  ((match lookupPD s.peer_data_map p with
    | some d =>
      match d.pubkey with
      | some k => .ok k
      | none => .error .pubkeyNotFound
    | none => .error .peerNotFound), s)

/-- `PeerStore.add_privkey` (lines 175-182). -/
def PeerStore.add_privkey (s : PeerStore) (p : ID) (privkey : PrivateKey) : PeerStore :=
  s.modifyPD p (fun d => d.add_privkey privkey)

/-- `PeerStore.privkey` (lines 184-197). -/
def PeerStore.privkey (s : PeerStore) (p : ID) :
    Except PeerStoreError PrivateKey × PeerStore :=
  ((match lookupPD s.peer_data_map p with
    | some d =>
      match d.privkey with
      | some k => .ok k
      | none => .error .privkeyNotFound
    | none => .error .peerNotFound), s)

/-- `PeerStore.add_key_pair` (lines 199-205): the body is
`self.add_pubkey(key_pair.public_key)` — it omits the `peer_id` argument that
`add_pubkey` requires, so Python raises `TypeError` before any state is
touched; `add_privkey` is likewise never reached.  Embedded as an error result
with the store unchanged. -/
def PeerStore.add_key_pair (s : PeerStore) (p : ID) (key_pair : KeyPair) :
    Except PeerStoreError PeerStore :=
  .error .typeError

/-- Independent statement of "deduplicated, first-seen order": keep the first
occurrence of each element, drop all later occurrences.  Used to compare the
protocol-book union against the wording of the spec. -/
def firstSeenDedup : List Protocol → List Protocol
  | [] => []
  | x :: xs => x :: firstSeenDedup (xs.filter fun y => decide (y ≠ x))
termination_by l => l.length
decreasing_by
  simp only [List.length_cons]
  exact Nat.lt_succ_of_le (List.length_filter_le _ _)

/- ---------------------------------------------------------------------- -/
/- Helper lemmas about the association-list map and the insertion helpers. -/

lemma lookup_updatePD_self (m : List (ID × PeerData)) (p : ID) (d : PeerData) :
    lookupPD (updatePD m p d) p = some d := by
  induction m with
  | nil => simp [updatePD, lookupPD]
  | cons hd tl ih =>
    obtain ⟨q, e⟩ := hd
    by_cases h : q = p
    · simp [updatePD, h, lookupPD]
    · simp [updatePD, h, lookupPD, ih]

lemma lookup_modifyPD_self (s : PeerStore) (p : ID) (f : PeerData → PeerData) :
    lookupPD (s.modifyPD p f).peer_data_map p
      = some (f ((lookupPD s.peer_data_map p).getD PeerData.emptyData)) := by
  unfold PeerStore.modifyPD PeerStore.create_or_get_peer_data
  cases h : lookupPD s.peer_data_map p <;> simp [h, lookup_updatePD_self]

lemma lookup_add_addrs_self (s : PeerStore) (p : ID) (as : List Multiaddr) (t : Int) :
    lookupPD (s.add_addrs p as t).peer_data_map p
      = some (((lookupPD s.peer_data_map p).getD PeerData.emptyData).add_addrs as) :=
  lookup_modifyPD_self s p _

lemma lookup_add_protocols_self (s : PeerStore) (p : ID) (L : List Protocol) :
    lookupPD (s.add_protocols p L).peer_data_map p
      = some (((lookupPD s.peer_data_map p).getD PeerData.emptyData).add_protocols L) :=
  lookup_modifyPD_self s p _

lemma lookup_set_protocols_self (s : PeerStore) (p : ID) (L : List Protocol) :
    lookupPD (s.set_protocols p L).peer_data_map p
      = some (((lookupPD s.peer_data_map p).getD PeerData.emptyData).set_protocols L) :=
  lookup_modifyPD_self s p _

lemma lookup_put_self (s : PeerStore) (p : ID) (k : String) (v : MetaValue) :
    lookupPD (s.put p k v).peer_data_map p
      = some (((lookupPD s.peer_data_map p).getD PeerData.emptyData).put_metadata k v) :=
  lookup_modifyPD_self s p _

lemma lookup_add_pubkey_self (s : PeerStore) (p : ID) (k : PublicKey) :
    lookupPD (s.add_pubkey p k).peer_data_map p
      = some (((lookupPD s.peer_data_map p).getD PeerData.emptyData).add_pubkey k) :=
  lookup_modifyPD_self s p _

lemma mem_of_lookup_eq_some {m : List (ID × PeerData)} {p : ID} {d : PeerData}
    (h : lookupPD m p = some d) : (p, d) ∈ m := by
  induction m with
  | nil => simp [lookupPD] at h
  | cons hd tl ih =>
    obtain ⟨q, e⟩ := hd
    by_cases hq : q = p
    · subst hq
      simp [lookupPD] at h
      subst h
      exact List.mem_cons_self _ _
    · simp [lookupPD, hq] at h
      exact List.mem_cons_of_mem _ (ih h)

lemma mem_insertAddr_self (l : List Multiaddr) (a : Multiaddr) : a ∈ insertAddr l a := by
  unfold insertAddr
  split
  · assumption
  · simp

/- ---------------------------------------------------------------------- -/
/- Claim theorems. -/

/-- C1: the claim says `add_pubkey(P, K)` fails with `PeerIDMismatch` and stores
nothing whenever the identifier derived from K differs from P.  The code does
not: whatever identifier-derivation function one takes, even when
`derive k ≠ p` the call succeeds, stores the key, and a subsequent `pubkey(P)`
returns it (the validation is an unimplemented TODO at peerstore.py line 157). -/
theorem add_pubkey_stores_despite_mismatch (derive : PublicKey → ID) (s : PeerStore)
    (p : ID) (k : PublicKey) (h : derive k ≠ p) :
    ((s.add_pubkey p k).pubkey p).1 = Except.ok k := by
  have hl := lookup_add_pubkey_self s p k
  simp [PeerStore.pubkey, hl, PeerData.add_pubkey]

/-- Witness for C1: with the identity as derivation function, key 1 derives id 1
which differs from peer 0, yet `add_pubkey` stores the key and `pubkey` returns it. -/
theorem add_pubkey_stores_despite_mismatch_witness :
    (fun k : PublicKey => k) 1 ≠ 0 ∧
      ((PeerStore.emptyStore.add_pubkey 0 1).pubkey 0).1 = Except.ok 1 :=
  ⟨by decide, add_pubkey_stores_despite_mismatch (fun k => k) PeerStore.emptyStore 0 1 (by decide)⟩

/-- C2: the claim says `add_addrs(P, A, t)` with `t ≤ 0` fails with `InvalidTTL`
and creates no record.  The code accepts any `ttl` and discards it
("# Ignore ttl for now", peerstore.py line 117): from the empty store, adding an
address with a non-positive ttl succeeds and the address is afterwards returned
by `addrs(P)`. -/
theorem add_addrs_ignores_invalid_ttl (p : ID) (a : Multiaddr) (t : Int) (h : t ≤ 0) :
    ((PeerStore.emptyStore.add_addrs p [a] t).addrs p).1 = Except.ok [a] := by
  simp [PeerStore.emptyStore, PeerStore.add_addrs, PeerStore.modifyPD,
    PeerStore.create_or_get_peer_data, lookupPD, updatePD, PeerStore.addrs,
    PeerData.add_addrs, PeerData.emptyData, insertAddr, PeerData.get_addrs]

/-- Witness for C2: ttl = 0 is non-positive, yet the address is stored. -/
theorem add_addrs_ignores_invalid_ttl_witness :
    (0 : Int) ≤ 0 ∧ ((PeerStore.emptyStore.add_addrs 7 ["addr1"] 0).addrs 7).1 = Except.ok ["addr1"] :=
  ⟨by decide, add_addrs_ignores_invalid_ttl 7 "addr1" 0 (by decide)⟩

/-- C3: the claim says `add_key_pair(P, pair)` stores both halves atomically so
that `pubkey(P)` and `privkey(P)` return them.  The code's body is
`self.add_pubkey(key_pair.public_key)` — the `peer_id` argument `add_pubkey`
requires is missing, so every call raises `TypeError` before touching any state
and no input can ever succeed; the store is left unchanged. -/
theorem add_key_pair_always_raises (s : PeerStore) (p : ID) (kp : KeyPair) :
    s.add_key_pair p kp = Except.error PeerStoreError.typeError :=
  rfl

/-- C4 counterexample: the claim says that after writes touching only the
Metadata Book, `addrs(P)` still fails with `PeerNotFound` for a peer never
referenced in the Address Book.  In the code all four books share the single
`peer_data_map`: `put(0, "k", "v")` on the empty store makes peer 0 known to
`addrs`, which returns an empty list instead of failing. -/
theorem put_then_addrs_returns_empty :
    ((PeerStore.emptyStore.put 0 "k" "v").addrs 0).1 = Except.ok [] := rfl

/-- C4 (amended): writing to the Metadata Book (`put`), the Protocol Book
(`add_protocols`) or the Key Store (`add_pubkey`) for a peer unknown to the
store makes the peer known to the Address Book as well: `addrs(P)` afterwards
returns an empty list rather than failing with `PeerNotFound`, because the
sub-stores share one `peer_data_map` populated by `__create_or_get_peer_data`. -/
theorem cross_store_write_makes_peer_known (s : PeerStore) (p : ID) (k : String)
    (v : MetaValue) (L : List Protocol) (pk : PublicKey)
    (h : lookupPD s.peer_data_map p = none) :
    ((s.put p k v).addrs p).1 = Except.ok []
      ∧ ((s.add_protocols p L).addrs p).1 = Except.ok []
      ∧ ((s.add_pubkey p pk).addrs p).1 = Except.ok [] := by
  refine ⟨?_, ?_, ?_⟩
  · have h1 := lookup_put_self s p k v
    rw [h] at h1
    simp only [Option.getD_none] at h1
    simp [PeerStore.addrs, h1, PeerData.put_metadata, PeerData.get_addrs, PeerData.emptyData]
  · have h1 := lookup_add_protocols_self s p L
    rw [h] at h1
    simp only [Option.getD_none] at h1
    simp [PeerStore.addrs, h1, PeerData.add_protocols, PeerData.get_addrs, PeerData.emptyData]
  · have h1 := lookup_add_pubkey_self s p pk
    rw [h] at h1
    simp only [Option.getD_none] at h1
    simp [PeerStore.addrs, h1, PeerData.add_pubkey, PeerData.get_addrs, PeerData.emptyData]

/-- Witness for the amended C4 at the empty store and peer 0. -/
theorem cross_store_write_makes_peer_known_witness :
    lookupPD PeerStore.emptyStore.peer_data_map 0 = none ∧
      (((PeerStore.emptyStore.put 0 "agent" "x").addrs 0).1 = Except.ok []
        ∧ ((PeerStore.emptyStore.add_protocols 0 ["echo"]).addrs 0).1 = Except.ok []
        ∧ ((PeerStore.emptyStore.add_pubkey 0 5).addrs 0).1 = Except.ok []) :=
  ⟨rfl, cross_store_write_makes_peer_known PeerStore.emptyStore 0 "agent" "x" ["echo"] 5 rfl⟩

/-- C6 counterexample: the claim says `addrs(P)` fails with `PeerNotFound`
whenever P was never referenced in the Address Book.  Peer 0 below is written
only through the Protocol Book (`add_protocols`), never through the Address
Book, yet `addrs(0)` succeeds with an empty list: the sub-stores share one
`peer_data_map`, so "known" is map-wide, not Address-Book-scoped. -/
theorem addrs_succeeds_without_addr_book_reference :
    ((PeerStore.emptyStore.add_protocols 0 ["echo"]).addrs 0).1 = Except.ok [] := rfl

/-- C6 (amended): `addrs(P)` fails with the peer-not-found error when P was
never referenced in any sub-store (P is absent from the shared map);
`clear_addrs(P)` on an unknown P is a no-op returning the store unchanged; and
on a known P it empties the address list, after which `addrs(P)` returns an
empty list rather than failing. -/
theorem addrs_and_clear_addrs_semantics (s : PeerStore) (p : ID) :
    (lookupPD s.peer_data_map p = none →
        (s.addrs p).1 = Except.error PeerStoreError.peerNotFound ∧ s.clear_addrs p = s)
      ∧ (lookupPD s.peer_data_map p ≠ none →
        ((s.clear_addrs p).addrs p).1 = Except.ok []) := by
  constructor
  · intro h
    constructor
    · simp [PeerStore.addrs, h]
    · simp [PeerStore.clear_addrs, h]
  · intro h
    rcases Option.ne_none_iff_exists.1 h with ⟨d, hd⟩
    simp [PeerStore.clear_addrs, ← hd, PeerStore.addrs, lookup_updatePD_self,
      PeerData.clear_addrs, PeerData.get_addrs]

/-- Witness for C6: peer 0 is unknown to the empty store (error and no-op
branches); peer 1, once given an address and cleared, yields an empty list. -/
theorem addrs_and_clear_addrs_semantics_witness :
    (lookupPD PeerStore.emptyStore.peer_data_map 0 = none ∧
        ((PeerStore.emptyStore.addrs 0).1 = Except.error PeerStoreError.peerNotFound
          ∧ PeerStore.emptyStore.clear_addrs 0 = PeerStore.emptyStore))
      ∧ (lookupPD (PeerStore.emptyStore.add_addrs 1 ["addr1"] 10).peer_data_map 1 ≠ none ∧
        (((PeerStore.emptyStore.add_addrs 1 ["addr1"] 10).clear_addrs 1).addrs 1).1 = Except.ok []) :=
  ⟨⟨rfl, (addrs_and_clear_addrs_semantics PeerStore.emptyStore 0).1 rfl⟩,
    ⟨by decide,
      (addrs_and_clear_addrs_semantics (PeerStore.emptyStore.add_addrs 1 ["addr1"] 10) 1).2
        (by decide)⟩⟩

/-- C9: `add_addr(P, a, t)` is literally a call to `add_addrs(P, [a], t)`
(peerstore.py line 109); the two leave the store in identical states. -/
theorem add_addr_eq_add_addrs (s : PeerStore) (p : ID) (a : Multiaddr) (t : Int) :
    s.add_addr p a t = s.add_addrs p [a] t :=
  rfl

/-- C10: no reading operation mutates the store.  Each read returns its result
paired with the store after the call; for `peer_info`, `addrs`, `get_protocols`,
`pubkey`, `privkey`, `get`, `peers_with_addrs` and `peer_ids` that store is the
one the call started from — none of their bodies calls
`__create_or_get_peer_data` or assigns into `peer_data_map`. -/
theorem read_ops_preserve_state (s : PeerStore) (p : ID) (k : String) :
    (s.peer_info p).2 = s ∧ (s.addrs p).2 = s ∧ (s.get_protocols p).2 = s
      ∧ (s.pubkey p).2 = s ∧ (s.privkey p).2 = s ∧ (s.get p k).2 = s
      ∧ s.peers_with_addrs.2 = s ∧ s.peer_ids.2 = s :=
  ⟨rfl, rfl, rfl, rfl, rfl, rfl, rfl, rfl⟩

lemma firstSeenDedup_cons (x : Protocol) (L : List Protocol) :
    firstSeenDedup (x :: L) = x :: firstSeenDedup (L.filter fun y => decide (y ≠ x)) := by
  rw [firstSeenDedup]

lemma foldl_insertProto_eq (l : List Protocol) : ∀ acc : List Protocol,
    l.foldl insertProto acc = acc ++ firstSeenDedup (l.filter fun y => decide (y ∉ acc)) := by
  induction l with
  | nil => intro acc; simp [firstSeenDedup]
  | cons x xs ih =>
    intro acc
    by_cases hx : x ∈ acc
    · have hfalse : decide (x ∉ acc) = false := by simp [hx]
      calc (x :: xs).foldl insertProto acc
          = xs.foldl insertProto (insertProto acc x) := rfl
        _ = xs.foldl insertProto acc := by rw [insertProto, if_pos hx]
        _ = acc ++ firstSeenDedup (xs.filter fun y => decide (y ∉ acc)) := ih acc
        _ = acc ++ firstSeenDedup ((x :: xs).filter fun y => decide (y ∉ acc)) := by
            rw [List.filter_cons, hfalse]
            simp
    · have htrue : decide (x ∉ acc) = true := by simp [hx]
      have h1 : insertProto acc x = acc ++ [x] := by rw [insertProto, if_neg hx]
      have hpred : (fun y : Protocol => decide (y ∉ acc ++ [x]))
          = fun y => decide (y ≠ x) && decide (y ∉ acc) := by
        funext y
        by_cases h1 : y ∈ acc <;> by_cases h2 : y = x <;> simp [h1, h2, List.mem_append]
      calc (x :: xs).foldl insertProto acc
          = xs.foldl insertProto (insertProto acc x) := rfl
        _ = xs.foldl insertProto (acc ++ [x]) := by rw [h1]
        _ = (acc ++ [x]) ++ firstSeenDedup (xs.filter fun y => decide (y ∉ acc ++ [x])) := ih _
        _ = acc ++ (x :: firstSeenDedup (xs.filter fun y => decide (y ∉ acc ++ [x]))) := by
            simp [List.append_assoc]
        _ = acc ++ (x :: firstSeenDedup
              ((xs.filter fun y => decide (y ∉ acc)).filter fun y => decide (y ≠ x))) := by
            rw [hpred, ← List.filter_filter]
        _ = acc ++ firstSeenDedup (x :: xs.filter fun y => decide (y ∉ acc)) := by
            rw [firstSeenDedup_cons]
        _ = acc ++ firstSeenDedup ((x :: xs).filter fun y => decide (y ∉ acc)) := by
            rw [List.filter_cons, htrue]
            simp

/-- C5: membership in `peers_with_addrs()` is decided purely by whether the
peer's stored address list is non-empty — no notion of expiry exists in the
state, because `add_addrs` discards its `ttl` argument.  Hence a peer whose
addresses were all inserted with an arbitrarily small ttl is in
`peers_with_addrs()` forever, and the claim's "currently-unexpired" filter is
not implemented. -/
theorem peers_with_addrs_tracks_stored_lists (s : PeerStore) (p : ID) :
    (p ∈ s.peers_with_addrs.1 ↔ ∃ d, (p, d) ∈ s.peer_data_map ∧ d.addrs ≠ [])
      ∧ (∀ (a : Multiaddr) (t₁ t₂ : Int), s.add_addrs p [a] t₁ = s.add_addrs p [a] t₂)
      ∧ (∀ (a : Multiaddr) (t : Int), p ∈ (s.add_addrs p [a] t).peers_with_addrs.1) := by
  have hmem : ∀ s' : PeerStore,
      p ∈ s'.peers_with_addrs.1 ↔ ∃ d, (p, d) ∈ s'.peer_data_map ∧ d.addrs ≠ [] := by
    intro s'
    constructor
    · intro hp
      rcases List.mem_map.1 hp with ⟨x, hx, hx1⟩
      obtain ⟨q, d⟩ := x
      rcases List.mem_filter.1 hx with ⟨hxm, hxp⟩
      cases hx1
      refine ⟨d, hxm, ?_⟩
      simpa [PeerData.get_addrs, Nat.one_le_iff_ne_zero, List.length_eq_zero] using hxp
    · rintro ⟨d, hd, hne⟩
      refine List.mem_map.2 ⟨(p, d), List.mem_filter.2 ⟨hd, ?_⟩, rfl⟩
      simpa [PeerData.get_addrs, Nat.one_le_iff_ne_zero, List.length_eq_zero] using hne
  refine ⟨hmem s, fun a t₁ t₂ => rfl, fun a t => ?_⟩
  refine (hmem _).2 ?_
  have hl := lookup_add_addrs_self s p [a] t
  refine ⟨_, mem_of_lookup_eq_some hl, List.ne_nil_of_mem (a := a) ?_⟩
  simp [PeerData.add_addrs, List.foldl, mem_insertAddr_self]

/-- C7: `set_protocols(P, L)` then `get_protocols(P)` returns exactly L in
order; and for a peer not yet in the store, `add_protocols(P, L₁)` then
`add_protocols(P, L₂)` makes `get_protocols(P)` return the first-seen-order
deduplication of `L₁ ++ L₂`. -/
theorem protocol_book_semantics (s : PeerStore) (p : ID) (L L₁ L₂ : List Protocol) :
    ((s.set_protocols p L).get_protocols p).1 = Except.ok L
      ∧ (lookupPD s.peer_data_map p = none →
        (((s.add_protocols p L₁).add_protocols p L₂).get_protocols p).1
          = Except.ok (firstSeenDedup (L₁ ++ L₂))) := by
  constructor
  · have hl := lookup_set_protocols_self s p L
    simp [PeerStore.get_protocols, hl, PeerData.set_protocols, PeerData.get_protocols]
  · intro h
    have h1 := lookup_add_protocols_self s p L₁
    rw [h] at h1
    simp only [Option.getD_none] at h1
    have h2 := lookup_add_protocols_self (s.add_protocols p L₁) p L₂
    rw [h1] at h2
    simp only [Option.getD_some] at h2
    simp only [PeerStore.get_protocols, h2, PeerData.add_protocols, PeerData.get_protocols,
      PeerData.emptyData]
    rw [← List.foldl_append, foldl_insertProto_eq]
    have hfilter : ((L₁ ++ L₂).filter fun y => decide (y ∉ ([] : List Protocol))) = L₁ ++ L₂ := by
      simp
    rw [hfilter]
    simp

/-- Witness for C7: concrete protocol lists; the hypothesis that peer 0 is
absent from the empty store holds by computation. -/
theorem protocol_book_semantics_witness :
    lookupPD PeerStore.emptyStore.peer_data_map 0 = none ∧
      (((PeerStore.emptyStore.set_protocols 0 ["a", "b"]).get_protocols 0).1
          = Except.ok ["a", "b"]
        ∧ (((PeerStore.emptyStore.add_protocols 0 ["a", "b"]).add_protocols 0
              ["b", "c"]).get_protocols 0).1
          = Except.ok (firstSeenDedup (["a", "b"] ++ ["b", "c"]))) :=
  ⟨rfl,
    (protocol_book_semantics PeerStore.emptyStore 0 ["a", "b"] ["a", "b"] ["b", "c"]).1,
    (protocol_book_semantics PeerStore.emptyStore 0 ["a", "b"] ["a", "b"] ["b", "c"]).2 rfl⟩

end PeerStoreModel
